import Mathlib

/-!
Shallow embedding of the PR-review orchestration script (`src/agent.py`)
of the `recipe-api` repository, together with the spec's task-handoff
orchestration core (spec sections 4.3 and 4.4), and proofs of the
claims about them.

External effects (the GitHub REST calls and the llama-index context
store) are modelled by passing each external call's outcome as an
explicit argument of type `Except PyExn _`; a Python `raise` is an
`Except.error`, a caught exception is a handled `.error` branch.
-/

namespace RecipeApi

/-- A Python exception value.  `keyNotFound` models the error the spec's
Shared State Store raises when a consumer requires a key that was never
set (spec section 4.1); `external` models any exception coming out of a
GitHub REST call (network, not-found resource, permission) or of byte
decoding. -/
inductive PyExn where
  | keyNotFound : PyExn
  | external : String → PyExn
deriving DecidableEq, Repr

/-- The fields of a GitHub pull-request object that `get_pr_details`
reads (`pull_request.user.login`, `.title`, `.body`, `.diff_url`,
`.state`, and the SHAs of `pull_request.get_commits()`). -/
structure PullRequestData where
  author : String
  title : String
  body : String
  diff_url : String
  state : String
  commit_SHAs : List String
deriving DecidableEq, Repr

/-- The dictionary returned by `get_pr_details` (src/agent.py lines
66-83): same shape in both the success and the degraded branch. -/
structure PRDetails where
  author : String
  title : String
  body : String
  diff_url : String
  state : String
  commit_SHAs : List String
deriving DecidableEq, Repr

/-- `get_pr_details` (src/agent.py lines 46-83).  `fetch` is the outcome
of the external interaction inside the `try` block (`repo.get_pull`
followed by reading the fields and `get_commits()`); any exception in
that block is caught and the degraded "unknown" record is returned. -/
def get_pr_details (pr_number : Int) (fetch : Except PyExn PullRequestData) : PRDetails :=
  match pr_number, fetch with
  | _, Except.ok pull_request =>
      { author := pull_request.author
        title := pull_request.title
        body := pull_request.body
        diff_url := pull_request.diff_url
        state := pull_request.state
        commit_SHAs := pull_request.commit_SHAs }
  | _, Except.error _ =>
      { author := "unknown"
        title := "unknown"
        body := ""
        diff_url := "unknown"
        state := "unknown"
        commit_SHAs := [] }

/-- One element of `commit.files` as read by `get_commit_details`. -/
structure CommitFile where
  filename : String
  status : String
  additions : Nat
  deletions : Nat
  changes : Nat
  patch : Option String
deriving DecidableEq, Repr

/-- One entry of the list returned by `get_commit_details`: the fields
of a `commit.files` element plus the `ref` key set to the commit SHA. -/
structure ChangedFile where
  filename : String
  status : String
  additions : Nat
  deletions : Nat
  changes : Nat
  patch : Option String
  ref : String
deriving DecidableEq, Repr

/-- `get_commit_details` (src/agent.py lines 86-121).  `fetch` is the
outcome of the external interaction (`repo.get_commit(head_sha)` and the
iteration over `commit.files`).  The function body has NO `try`/`except`:
an exception from the external call propagates to the caller, which the
`Except.error` result records. -/
def get_commit_details (head_sha : String) (fetch : Except PyExn (List CommitFile)) :
    Except PyExn (List ChangedFile) :=
  match fetch with
  | Except.error e => Except.error e
  | Except.ok files =>
      Except.ok (files.map fun f =>
        { filename := f.filename
          status := f.status
          additions := f.additions
          deletions := f.deletions
          changes := f.changes
          patch := f.patch
          ref := head_sha })

/-- A GitHub contents object as read by `get_file_content`: its `type`
field and the outcome of `decoded_content.decode("utf-8")` (which yields
text or raises a decode error; the byte blob itself is external data, so
only its decode outcome is observable to the function). -/
structure ContentFile where
  type : String
  decoded_content_utf8 : Except PyExn String
deriving Repr

/-- The result of `repo.get_contents(file_path, ref=ref)`: GitHub
returns a list when the path is a directory, a single object otherwise. -/
inductive ContentsResult where
  | dir : List ContentFile → ContentsResult
  | single : ContentFile → ContentsResult
deriving Repr

/-- `get_file_content` (src/agent.py lines 124-150).  `fetch` is the
outcome of `repo.get_contents(file_path, ref=ref)`.  Everything runs
inside one `try` block: a fetch failure or a decode failure is caught
and `None` is returned; a list result (directory) or a non-`"file"`
`type` also returns `None`. -/
def get_file_content (file_path : String) (ref : String)
    (fetch : Except PyExn ContentsResult) : Option String :=
  match file_path, ref, fetch with
  | _, _, Except.error _ => none
  | _, _, Except.ok (ContentsResult.dir _) => none
  | _, _, Except.ok (ContentsResult.single file_content) =>
      if file_content.type ≠ "file" then none
      else
        match file_content.decoded_content_utf8 with
        | Except.error _ => none
        | Except.ok s => some s

/-- One external GitHub call issued by `post_final_review_to_github`. -/
inductive GithubCall where
  | getPull : Int → GithubCall
  | createReview : Int → String → String → GithubCall
deriving DecidableEq, Repr

/-- Whether a `GithubCall` is a create-review write. -/
def GithubCall.isCreateReview : GithubCall → Bool
  | GithubCall.createReview _ _ _ => true
  | _ => false

/-- `post_final_review_to_github` (src/agent.py lines 194-212).
`getPullResult` and `createReviewResult` are the outcomes of the two
external calls in the `try` block; the `except` clause re-raises the
caught exception unchanged (`raise e`).  The first component of the
result is the trace of external calls actually issued (a call whose
predecessor raised is never issued); the second is the function's
outcome. -/
def post_final_review_to_github (pr_number : Int) (final_review_comment : String)
    (getPullResult : Except PyExn Unit) (createReviewResult : Except PyExn Unit) :
    List GithubCall × Except PyExn Unit :=
  match getPullResult with
  | Except.error e => ([GithubCall.getPull pr_number], Except.error e)
  | Except.ok _ =>
      match createReviewResult with
      | Except.error e =>
          ([GithubCall.getPull pr_number,
            GithubCall.createReview pr_number final_review_comment "COMMENT"],
           Except.error e)
      | Except.ok _ =>
          ([GithubCall.getPull pr_number,
            GithubCall.createReview pr_number final_review_comment "COMMENT"],
           Except.ok ())

/-- Python dictionary lookup (`d[k]` read, as `Option`): first binding
of the key in the association list, `none` when absent. -/
def pyGet {α : Type} (d : List (String × α)) (k : String) : Option α :=
  match d with
  | [] => none
  | (k', v) :: rest => if k' = k then some v else pyGet rest k

/-- Python dictionary update (`d[k] = v`): replace the first binding of
the key, append a new binding when absent. -/
def pySet {α : Type} (d : List (String × α)) (k : String) (v : α) : List (String × α) :=
  match d with
  | [] => [(k, v)]
  | (k', v') :: rest => if k' = k then (k, v) :: rest else (k', v') :: pySet rest k v

/-- The dictionary stored under the `"state"` key of the context store:
all values the agent tools put there are strings. -/
def StateDict : Type := List (String × String)

/-- The llama-index context store (`ctx.store`) as a key-value record;
the only value type the tools in src/agent.py store is a `StateDict`. -/
def CtxStore : Type := List (String × StateDict)

/-- Modelled from the spec: `ctx.store.get(key)` of the llama-index
`Context` (external to the repository).  Spec section 4.1: `get(key) ->
value | absent`, and the store "fails with KeyNotFound only if a
consumer requires a key that was never set"; the tools in src/agent.py
call `get` with no default, so an absent key surfaces as the
`keyNotFound` failure. -/
def storeGet (s : CtxStore) (k : String) : Except PyExn StateDict :=
  match pyGet s k with
  | some v => Except.ok v
  | none => Except.error PyExn.keyNotFound

/-- Modelled from the spec: `ctx.store.set(key, value)` of the
llama-index `Context` (external to the repository).  Spec section 4.1:
`set(key, value) -> void`. -/
def storeSet (s : CtxStore) (k : String) (v : StateDict) : CtxStore :=
  pySet s k v

/-- `add_gathered_context_to_state` (src/agent.py lines 152-163):
`current_state = await ctx.store.get("state")`, then
`current_state["gathered_context"] = gathered_context`, then
`await ctx.store.set("state", current_state)`.  A failure of the `get`
(no default, no handler) propagates. -/
def add_gathered_context_to_state (store : CtxStore) (gathered_context : String) :
    Except PyExn CtxStore :=
  match storeGet store "state" with
  | Except.error e => Except.error e
  | Except.ok current_state =>
      Except.ok (storeSet store "state" (pySet current_state "gathered_context" gathered_context))

/-- `add_draft_comment_to_state` (src/agent.py lines 165-175): same
get-then-set pair, writing the `"draft_comment"` key. -/
def add_draft_comment_to_state (store : CtxStore) (draft_comment : String) :
    Except PyExn CtxStore :=
  match storeGet store "state" with
  | Except.error e => Except.error e
  | Except.ok current_state =>
      Except.ok (storeSet store "state" (pySet current_state "draft_comment" draft_comment))

/-- `add_final_review_to_state` (src/agent.py lines 177-192): same
get-then-set pair, writing the `"final_review_comment"` key. -/
def add_final_review_to_state (store : CtxStore) (final_review_comment : String) :
    Except PyExn CtxStore :=
  match storeGet store "state" with
  | Except.error e => Except.error e
  | Except.ok current_state =>
      Except.ok (storeSet store "state" (pySet current_state "final_review_comment" final_review_comment))

/-- The `initial_state` dictionary passed to `AgentWorkflow`
(src/agent.py lines 342-346).  Note the keys: `"gathered_contexts"`
(plural) and `"review_comment"`, which no tool writes. -/
def workflow_initial_state : StateDict :=
  [("gathered_contexts", ""), ("review_comment", ""), ("final_review_comment", "")]

/-- The context store at the start of a workflow run: `AgentWorkflow`
installs `initial_state` under the `"state"` key. -/
def initialStore : CtxStore :=
  [("state", workflow_initial_state)]

/-- One invocation of a state-mutation tool during a run, with the
string argument the agent passed. -/
inductive StateToolCall where
  | gathered : String → StateToolCall
  | draft : String → StateToolCall
  | final : String → StateToolCall
deriving DecidableEq, Repr

/-- Apply one state-mutation tool call to the context store; a tool
whose internal `get` failed leaves the store unchanged (the exception
goes to the agent framework, not into the store). -/
def applyStateTool (call : StateToolCall) (store : CtxStore) : CtxStore :=
  match (match call with
         | StateToolCall.gathered v => add_gathered_context_to_state store v
         | StateToolCall.draft v => add_draft_comment_to_state store v
         | StateToolCall.final v => add_final_review_to_state store v) with
  | Except.ok store' => store'
  | Except.error _ => store

/-- The context store after a sequence of state-mutation tool calls. -/
def runStateTools (calls : List StateToolCall) (store : CtxStore) : CtxStore :=
  calls.foldl (fun s c => applyStateTool c s) store

/-- An agent declaration: the fields of a `FunctionAgent` construction
that the orchestration core observes (name, bound tool names, allowed
handoff targets); the LLM policy itself is opaque. -/
structure Agent where
  name : String
  tools : List String
  can_handoff_to : List String
deriving DecidableEq, Repr

/-- `context_agent` (src/agent.py lines 272-282). -/
def context_agent : Agent :=
  { name := "ContextAgent"
    tools := ["get_pr_details", "get_commit_details", "get_file_content",
              "add_gathered_context_to_state"]
    can_handoff_to := ["CommentorAgent"] }

/-- `commentor_agent` (src/agent.py lines 303-310). -/
def commentor_agent : Agent :=
  { name := "CommentorAgent"
    tools := ["add_draft_comment_to_state"]
    can_handoff_to := ["ContextAgent", "ReviewAndPostingAgent"] }

/-- `review_and_posting_agent` (src/agent.py lines 326-333). -/
def review_and_posting_agent : Agent :=
  { name := "ReviewAndPostingAgent"
    tools := ["add_final_review_to_state", "post_final_review_to_github"]
    can_handoff_to := ["CommentorAgent"] }

/-- The agent list of the `AgentWorkflow` (src/agent.py line 340). -/
def workflow_agents : List Agent :=
  [context_agent, commentor_agent, review_and_posting_agent]

/-- The workflow's root agent name (src/agent.py line 341):
`review_and_posting_agent.name`. -/
def root_agent : String :=
  review_and_posting_agent.name

/-- Modelled from the spec: the `TurnResult` tagged variant of spec
section 4.3 — an agent turn yields tool calls, a handoff request, or a
final output.  The turn logic itself lives in the external llama-index
`AgentWorkflow`, not in the repository. -/
inductive TurnResult where
  | toolCalls : List (String × String) → TurnResult
  | handoff : String → String → TurnResult
  | finalOutput : String → TurnResult

/-- Modelled from the spec: the `RunResult` statuses of spec
section 4.4 — `Success`, `Exhausted`, `Failed`. -/
inductive RunStatus where
  | success : String → RunStatus
  | exhausted : RunStatus
  | failed : String → RunStatus
deriving DecidableEq, Repr

/-- Modelled from the spec: the Orchestrator's per-run state machine
(spec sections 4.3 and 4.4), which in the source is the external
llama-index `AgentWorkflow.run` loop.  `policy` is the opaque
non-deterministic decision function (`take_turn`), given here as a
scripted stand-in (spec section 9): it maps the turn number and the
active agent's name to a `TurnResult`.  Each turn consumes one unit of
the `max_turns` budget; on `Handoff`, a target outside the active
agent's `can_handoff_to` set terminates the run with an error instead
of being executed; when the budget is exhausted the run returns
`Exhausted`.  The first component is the replayable trace of
(turn number, active agent) pairs. -/
def orchestrateTrace (agents : List Agent) (policy : Nat → String → TurnResult) :
    Nat → String → Nat → List (Nat × String) × RunStatus
  | 0, _, _ => ([], RunStatus.exhausted)
  | fuel + 1, current, turn =>
      match agents.find? (fun a => a.name == current) with
      | none => ([(turn, current)], RunStatus.failed "UnknownAgent")
      | some a =>
          match policy turn current with
          | TurnResult.finalOutput text => ([(turn, current)], RunStatus.success text)
          | TurnResult.toolCalls _ =>
              let rest := orchestrateTrace agents policy fuel current (turn + 1)
              ((turn, current) :: rest.1, rest.2)
          | TurnResult.handoff target _ =>
              if target ∈ a.can_handoff_to then
                let rest := orchestrateTrace agents policy fuel target (turn + 1)
                ((turn, current) :: rest.1, rest.2)
              else ([(turn, current)], RunStatus.failed "HandoffRejected")

/-- Modelled from the spec: `run(root_agent, initial_state, max_turns)
-> RunResult` (spec section 4.4), starting at turn 0 with the full
`max_turns` budget. -/
def orchestrate (agents : List Agent) (policy : Nat → String → TurnResult)
    (root : String) (max_turns : Nat) : RunStatus :=
  (orchestrateTrace agents policy max_turns root 0).2

/-- A one-agent universe used as a scripted stand-in run: agent `"A"`
may hand off only to itself. -/
def loopAgent : Agent :=
  { name := "A", tools := [], can_handoff_to := ["A"] }

/-- A scripted stand-in policy that always requests a (legal) handoff
to `"A"` and never produces a final output. -/
def loopPolicy : Nat → String → TurnResult :=
  fun _ _ => TurnResult.handoff "A" "loop"

/-- A scripted stand-in policy that always issues an empty tool-call
batch. -/
def stayPolicy : Nat → String → TurnResult :=
  fun _ _ => TurnResult.toolCalls []

/-- A scripted stand-in policy that always requests a handoff to a name
outside every declared allowed-target set. -/
def badHandoffPolicy : Nat → String → TurnResult :=
  fun _ _ => TurnResult.handoff "NonexistentAgent" "oops"

/-- The per-tool frame contract of a state-mutation tool writing `key`:
when the `"state"` dictionary is present, the tool performs exactly the
get-then-set pair (one `set` of `"state"` on the unchanged store), the
written dictionary holds `v` at `key`, every other key of the `"state"`
dictionary is unchanged, and every other key of the store is
unchanged. -/
def StateToolSpec (tool : CtxStore → String → Except PyExn CtxStore) (key : String) : Prop :=
  ∀ (store : CtxStore) (v : String) (st : StateDict),
    storeGet store "state" = Except.ok st →
    tool store v = Except.ok (storeSet store "state" (pySet st key v))
    ∧ pyGet (pySet st key v) key = some v
    ∧ (∀ k, k ≠ key → pyGet (pySet st key v) k = pyGet st k)
    ∧ (∀ k, k ≠ "state" → pyGet (storeSet store "state" (pySet st key v)) k = pyGet store k)

end RecipeApi

namespace RecipeApi

/-! ## Helper lemmas -/

/-- Reading a Python dictionary after an update: the updated key holds
the new value, every other key is unchanged. -/
theorem pyGet_pySet {α : Type} (d : List (String × α)) (k : String) (v : α) (k' : String) :
    pyGet (pySet d k v) k' = if k' = k then some v else pyGet d k' := by
  induction d with
  | nil =>
      by_cases h : k' = k
      · subst h; simp [pySet, pyGet]
      · simp [pySet, pyGet, h, Ne.symm h]
  | cons hd tl ih =>
      obtain ⟨k₀, v₀⟩ := hd
      by_cases h₀ : k₀ = k
      · subst h₀
        by_cases h : k' = k₀
        · subst h; simp [pySet, pyGet]
        · simp [pySet, pyGet, h, Ne.symm h]
      · by_cases h : k₀ = k'
        · subst h
          simp [pySet, pyGet, h₀, Ne.symm h₀]
        · simp [pySet, pyGet, h₀, h, ih]

/-- Reading the `"state"` key right after `storeSet` wrote it. -/
theorem storeGet_storeSet_self (s : CtxStore) (d : StateDict) :
    storeGet (storeSet s "state" d) "state" = Except.ok d := by
  simp [storeGet, storeSet, pyGet_pySet]

/-! ## Claim theorems -/

/-- Claim C5: for every `pr_number`, if the external fetch inside
`get_pr_details` fails, `get_pr_details` returns exactly the degraded
record with author/title/diff_url/state `"unknown"`, empty body, and an
empty commit list. -/
theorem get_pr_details_degraded_record (pr_number : Int) (e : PyExn) :
    get_pr_details pr_number (Except.error e) =
      { author := "unknown", title := "unknown", body := "", diff_url := "unknown",
        state := "unknown", commit_SHAs := [] } := rfl

/-- Claim C2: for every `pr_number` and review body,
`post_final_review_to_github` re-raises the failure of either external
call unchanged, and succeeds exactly when both external calls succeed:
the terminal write tool never silently swallows an error. -/
theorem post_final_review_propagates_failure (pr_number : Int) (final_review_comment : String)
    (g r : Except PyExn Unit) (e : PyExn) :
    (post_final_review_to_github pr_number final_review_comment (Except.ok ()) (Except.error e)).2
      = Except.error e
    ∧ (post_final_review_to_github pr_number final_review_comment (Except.error e) r).2
      = Except.error e
    ∧ ((post_final_review_to_github pr_number final_review_comment g r).2 = Except.ok ()
        ↔ g = Except.ok () ∧ r = Except.ok ()) := by
  refine ⟨rfl, rfl, ?_⟩
  cases g with
  | error eg => simp [post_final_review_to_github]
  | ok u =>
      cases r with
      | error er => simp [post_final_review_to_github]
      | ok u' => simp [post_final_review_to_github]

/-- Claim C6: a single invocation of `post_final_review_to_github`
issues at most one create-review call against the external host,
whatever the outcomes of the external calls (zero automatic retries, so
one invocation can never cause duplicate postings). -/
theorem post_final_review_single_write (pr_number : Int) (final_review_comment : String)
    (g r : Except PyExn Unit) :
    ((post_final_review_to_github pr_number final_review_comment g r).1.countP
        GithubCall.isCreateReview) ≤ 1 := by
  cases g with
  | error eg => simp [post_final_review_to_github, List.countP, List.countP.go, GithubCall.isCreateReview]
  | ok u =>
      cases r with
      | error er =>
          simp [post_final_review_to_github, List.countP, List.countP.go, GithubCall.isCreateReview]
      | ok u' =>
          simp [post_final_review_to_github, List.countP, List.countP.go, GithubCall.isCreateReview]

/-- Claim C1 counterexample: `get_commit_details` has no exception
handler, so at this concrete failing fetch it propagates the failure to
its caller instead of returning any unknown/empty sentinel value. -/
theorem get_commit_details_raises :
    get_commit_details "deadbeef" (Except.error (PyExn.external "network failure"))
      = Except.error (PyExn.external "network failure")
    ∧ ¬ ∃ files, get_commit_details "deadbeef" (Except.error (PyExn.external "network failure"))
      = Except.ok files := by
  refine ⟨rfl, ?_⟩
  rintro ⟨files, h⟩
  exact Except.noConfusion h

/-- Claim C1 (amended): on external failure, `get_pr_details` returns
the degraded "unknown" record and `get_file_content` returns the `None`
sentinel, but `get_commit_details` (which has no `try`/`except`)
re-raises the failure to its caller. -/
theorem read_tools_failure_behaviour (pr_number : Int) (file_path ref head_sha : String)
    (e : PyExn) :
    get_pr_details pr_number (Except.error e) =
      { author := "unknown", title := "unknown", body := "", diff_url := "unknown",
        state := "unknown", commit_SHAs := [] }
    ∧ get_file_content file_path ref (Except.error e) = none
    ∧ get_commit_details head_sha (Except.error e) = Except.error e :=
  ⟨rfl, rfl, rfl⟩

/-- Claim C10: `get_file_content` returns `none` when the external
fetch fails, when the fetched object is a directory (a list result),
and when the object's `type` is not `"file"`; and it returns some text
only for a regular file whose bytes decode, in which case the text is
exactly the decoded content. -/
theorem get_file_content_none_unless_regular_file (file_path ref : String)
    (fetch : Except PyExn ContentsResult) :
    (∀ e, fetch = Except.error e → get_file_content file_path ref fetch = none)
    ∧ (∀ entries, fetch = Except.ok (ContentsResult.dir entries) →
        get_file_content file_path ref fetch = none)
    ∧ (∀ f, fetch = Except.ok (ContentsResult.single f) → f.type ≠ "file" →
        get_file_content file_path ref fetch = none)
    ∧ (∀ s, get_file_content file_path ref fetch = some s →
        ∃ f, fetch = Except.ok (ContentsResult.single f) ∧ f.type = "file"
          ∧ f.decoded_content_utf8 = Except.ok s) := by
  refine ⟨?_, ?_, ?_, ?_⟩
  · rintro e rfl; rfl
  · rintro entries rfl; rfl
  · rintro f rfl hf
    simp [get_file_content, hf]
  · intro s h
    match fetch with
    | Except.error e => exact Option.noConfusion h
    | Except.ok (ContentsResult.dir entries) => exact Option.noConfusion h
    | Except.ok (ContentsResult.single f) =>
        refine ⟨f, rfl, ?_, ?_⟩
        · by_contra hf
          simp [get_file_content, hf] at h
        · by_cases hf : f.type = "file"
          · simp only [get_file_content, hf] at h
            cases hd : f.decoded_content_utf8 with
            | error e' => rw [hd] at h; simp at h
            | ok s' =>
                rw [hd] at h
                simp at h
                exact congrArg Except.ok h
          · simp [get_file_content, hf] at h

/-- Claim C10 witness: the theorem applied at concrete inputs — a
symlink object yields `none`, and a regular file that yields
`some "hello"` is characterised by the completeness direction. -/
theorem get_file_content_none_unless_regular_file_witness :
    get_file_content "a/b.py" "deadbeef"
        (Except.ok (ContentsResult.single { type := "symlink", decoded_content_utf8 := Except.ok "s" }))
      = none
    ∧ ∃ f, (Except.ok (ContentsResult.single
          { type := "file", decoded_content_utf8 := Except.ok "hello" })
            : Except PyExn ContentsResult)
        = Except.ok (ContentsResult.single f) ∧ f.type = "file"
        ∧ f.decoded_content_utf8 = Except.ok "hello" :=
  ⟨(get_file_content_none_unless_regular_file "a/b.py" "deadbeef"
      (Except.ok (ContentsResult.single { type := "symlink", decoded_content_utf8 := Except.ok "s" }))).2.2.1
      _ rfl (by simp),
   (get_file_content_none_unless_regular_file "a/b.py" "deadbeef"
      (Except.ok (ContentsResult.single { type := "file", decoded_content_utf8 := Except.ok "hello" }))).2.2.2
      "hello" rfl⟩

/-- `add_gathered_context_to_state` satisfies the get-then-set frame
contract for its key `"gathered_context"`. -/
theorem gathered_tool_spec :
    StateToolSpec add_gathered_context_to_state "gathered_context" := by
  intro store v st h
  refine ⟨by simp [add_gathered_context_to_state, h], by simp [pyGet_pySet], ?_, ?_⟩
  · intro k hk
    rw [pyGet_pySet, if_neg hk]
  · intro k hk
    rw [storeSet, pyGet_pySet, if_neg hk]

/-- `add_draft_comment_to_state` satisfies the get-then-set frame
contract for its key `"draft_comment"`. -/
theorem draft_tool_spec :
    StateToolSpec add_draft_comment_to_state "draft_comment" := by
  intro store v st h
  refine ⟨by simp [add_draft_comment_to_state, h], by simp [pyGet_pySet], ?_, ?_⟩
  · intro k hk
    rw [pyGet_pySet, if_neg hk]
  · intro k hk
    rw [storeSet, pyGet_pySet, if_neg hk]

/-- `add_final_review_to_state` satisfies the get-then-set frame
contract for its key `"final_review_comment"`. -/
theorem final_tool_spec :
    StateToolSpec add_final_review_to_state "final_review_comment" := by
  intro store v st h
  refine ⟨by simp [add_final_review_to_state, h], by simp [pyGet_pySet], ?_, ?_⟩
  · intro k hk
    rw [pyGet_pySet, if_neg hk]
  · intro k hk
    rw [storeSet, pyGet_pySet, if_neg hk]

/-- Claim C7: each state-mutation tool performs a single get-then-set
pair on the shared state record and sets exactly its designated key
(`"gathered_context"`, `"draft_comment"`, `"final_review_comment"`
respectively); every other key of the shared state dictionary, and
every other key of the context store, keeps its value. -/
theorem state_tools_get_then_set_frame :
    StateToolSpec add_gathered_context_to_state "gathered_context"
    ∧ StateToolSpec add_draft_comment_to_state "draft_comment"
    ∧ StateToolSpec add_final_review_to_state "final_review_comment" :=
  ⟨gathered_tool_spec, draft_tool_spec, final_tool_spec⟩

/-- Claim C7 witness: the frame contract applied to the workflow's
concrete initial store. -/
theorem state_tools_get_then_set_frame_witness :
    storeGet initialStore "state" = Except.ok workflow_initial_state
    ∧ add_gathered_context_to_state initialStore "x"
        = Except.ok (storeSet initialStore "state"
            (pySet workflow_initial_state "gathered_context" "x"))
    ∧ add_draft_comment_to_state initialStore "y"
        = Except.ok (storeSet initialStore "state"
            (pySet workflow_initial_state "draft_comment" "y"))
    ∧ add_final_review_to_state initialStore "z"
        = Except.ok (storeSet initialStore "state"
            (pySet workflow_initial_state "final_review_comment" "z")) :=
  ⟨rfl,
   (state_tools_get_then_set_frame.1 initialStore "x" workflow_initial_state rfl).1,
   (state_tools_get_then_set_frame.2.1 initialStore "y" workflow_initial_state rfl).1,
   (state_tools_get_then_set_frame.2.2 initialStore "z" workflow_initial_state rfl).1⟩

/-- Claim C8 counterexample: on a store where the `"state"` key was
never set, each state-mutation tool's read propagates the `KeyNotFound`
failure instead of recovering with a default. -/
theorem state_tools_absent_key_raises :
    add_gathered_context_to_state ([] : CtxStore) "x" = Except.error PyExn.keyNotFound
    ∧ add_draft_comment_to_state ([] : CtxStore) "x" = Except.error PyExn.keyNotFound
    ∧ add_final_review_to_state ([] : CtxStore) "x" = Except.error PyExn.keyNotFound :=
  ⟨rfl, rfl, rfl⟩

/-- Claim C8 (amended): the state-mutation tools call
`ctx.store.get("state")` with no default and no handler, so whenever
the `"state"` key is absent the `KeyNotFound` failure propagates out of
the tool; absence is not treated as a recoverable condition there. -/
theorem state_tools_propagate_absent_state (store : CtxStore) (v : String)
    (h : pyGet store "state" = none) :
    add_gathered_context_to_state store v = Except.error PyExn.keyNotFound
    ∧ add_draft_comment_to_state store v = Except.error PyExn.keyNotFound
    ∧ add_final_review_to_state store v = Except.error PyExn.keyNotFound := by
  refine ⟨?_, ?_, ?_⟩ <;>
    simp [add_gathered_context_to_state, add_draft_comment_to_state,
      add_final_review_to_state, storeGet, h]

/-- Claim C8 (amended) witness: the amended statement at the empty
store. -/
theorem state_tools_propagate_absent_state_witness :
    pyGet ([] : CtxStore) "state" = none
    ∧ add_gathered_context_to_state ([] : CtxStore) "w" = Except.error PyExn.keyNotFound :=
  ⟨rfl, (state_tools_propagate_absent_state ([] : CtxStore) "w" rfl).1⟩

/-- Along any sequence of state-mutation tool calls, a store whose
`"state"` dictionary maps `"gathered_contexts"` and `"review_comment"`
to `""` keeps both bindings: no tool writes either key. -/
theorem runStateTools_preserves_initial_keys (calls : List StateToolCall) :
    ∀ (store : CtxStore) (st : StateDict),
      storeGet store "state" = Except.ok st →
      pyGet st "gathered_contexts" = some "" →
      pyGet st "review_comment" = some "" →
      ∃ st', storeGet (runStateTools calls store) "state" = Except.ok st'
        ∧ pyGet st' "gathered_contexts" = some "" ∧ pyGet st' "review_comment" = some "" := by
  induction calls with
  | nil => exact fun store st h h1 h2 => ⟨st, h, h1, h2⟩
  | cons c cs ih =>
      intro store st h h1 h2
      have hrun : runStateTools (c :: cs) store = runStateTools cs (applyStateTool c store) := rfl
      rw [hrun]
      cases c with
      | gathered v =>
          have happ : applyStateTool (StateToolCall.gathered v) store
              = storeSet store "state" (pySet st "gathered_context" v) := by
            simp [applyStateTool, (gathered_tool_spec store v st h).1]
          rw [happ]
          exact ih _ _ (storeGet_storeSet_self _ _)
            (by rw [pyGet_pySet, if_neg (by decide)]; exact h1)
            (by rw [pyGet_pySet, if_neg (by decide)]; exact h2)
      | draft v =>
          have happ : applyStateTool (StateToolCall.draft v) store
              = storeSet store "state" (pySet st "draft_comment" v) := by
            simp [applyStateTool, (draft_tool_spec store v st h).1]
          rw [happ]
          exact ih _ _ (storeGet_storeSet_self _ _)
            (by rw [pyGet_pySet, if_neg (by decide)]; exact h1)
            (by rw [pyGet_pySet, if_neg (by decide)]; exact h2)
      | final v =>
          have happ : applyStateTool (StateToolCall.final v) store
              = storeSet store "state" (pySet st "final_review_comment" v) := by
            simp [applyStateTool, (final_tool_spec store v st h).1]
          rw [happ]
          exact ih _ _ (storeGet_storeSet_self _ _)
            (by rw [pyGet_pySet, if_neg (by decide)]; exact h1)
            (by rw [pyGet_pySet, if_neg (by decide)]; exact h2)

/-- Claim C9: the initial keys `"gathered_contexts"` and
`"review_comment"` of the workflow's initial shared state are written
by no state-mutation tool (the tools write `"gathered_context"` and
`"draft_comment"` instead), so they keep their initial empty-string
values across every sequence of tool calls; only
`"final_review_comment"` is both initialised and written by a tool. -/
theorem initial_keys_never_written (calls : List StateToolCall) :
    (∃ st, storeGet (runStateTools calls initialStore) "state" = Except.ok st
       ∧ pyGet st "gathered_contexts" = some "" ∧ pyGet st "review_comment" = some "")
    ∧ (∃ st, storeGet (runStateTools [StateToolCall.final "done"] initialStore) "state"
          = Except.ok st
       ∧ pyGet st "final_review_comment" = some "done") := by
  constructor
  · exact runStateTools_preserves_initial_keys calls initialStore workflow_initial_state rfl rfl rfl
  · exact ⟨pySet workflow_initial_state "final_review_comment" "done", rfl, rfl⟩

/-- The turn numbers in a run's trace are consecutive, starting at the
initial turn number. -/
theorem orchestrateTrace_map_fst (agents : List Agent) (policy : Nat → String → TurnResult) :
    ∀ (fuel : Nat) (current : String) (turn : Nat),
      (orchestrateTrace agents policy fuel current turn).1.map Prod.fst
        = List.range' turn (orchestrateTrace agents policy fuel current turn).1.length := by
  intro fuel
  induction fuel with
  | zero => intro current turn; simp [orchestrateTrace]
  | succ n ih =>
      intro current turn
      cases hf : agents.find? (fun a => a.name == current) with
      | none => simp [orchestrateTrace, hf, List.range']
      | some a =>
          cases hp : policy turn current with
          | finalOutput text => simp [orchestrateTrace, hf, hp, List.range']
          | toolCalls cs =>
              simp [orchestrateTrace, hf, hp, List.range'_succ, ih current (turn + 1)]
          | handoff tgt rsn =>
              by_cases hm : tgt ∈ a.can_handoff_to
              · simp [orchestrateTrace, hf, hp, hm, List.range'_succ, ih tgt (turn + 1)]
              · simp [orchestrateTrace, hf, hp, hm, List.range']

/-- A run's trace is never longer than the turn budget. -/
theorem orchestrateTrace_length_le (agents : List Agent) (policy : Nat → String → TurnResult) :
    ∀ (fuel : Nat) (current : String) (turn : Nat),
      (orchestrateTrace agents policy fuel current turn).1.length ≤ fuel := by
  intro fuel
  induction fuel with
  | zero => intro current turn; simp [orchestrateTrace]
  | succ n ih =>
      intro current turn
      cases hf : agents.find? (fun a => a.name == current) with
      | none => simp [orchestrateTrace, hf]
      | some a =>
          cases hp : policy turn current with
          | finalOutput text => simp [orchestrateTrace, hf, hp]
          | toolCalls cs =>
              simp only [orchestrateTrace, hf, hp, List.length_cons]
              exact Nat.succ_le_succ (ih current (turn + 1))
          | handoff tgt rsn =>
              by_cases hm : tgt ∈ a.can_handoff_to
              · simp only [orchestrateTrace, hf, hp, if_pos hm, List.length_cons]
                exact Nat.succ_le_succ (ih tgt (turn + 1))
              · simp [orchestrateTrace, hf, hp, hm]

/-- Consecutive turn numbers are non-decreasing. -/
theorem chain'_le_range' : ∀ (n s : Nat), List.Chain' (· ≤ ·) (List.range' s n) := by
  intro n
  induction n with
  | zero => intro s; simp
  | succ m ih =>
      intro s
      rw [List.range'_succ]
      cases m with
      | zero => simp
      | succ m' =>
          rw [List.range'_succ]
          exact List.chain'_cons.mpr ⟨Nat.le_succ s, by rw [← List.range'_succ]; exact ih (s + 1)⟩

/-- A name appearing in the agent list can be found by the
orchestrator's lookup. -/
theorem find?_of_name_mem :
    ∀ (agents : List Agent) (name : String),
      name ∈ agents.map Agent.name →
      ∃ a, agents.find? (fun x => x.name == name) = some a ∧ a.name = name := by
  intro agents
  induction agents with
  | nil => intro name h; simp at h
  | cons b rest ih =>
      intro name h
      by_cases hb : b.name = name
      · exact ⟨b, by simp [List.find?, hb], hb⟩
      · have hmem : name ∈ rest.map Agent.name := by
          simp only [List.map_cons, List.mem_cons] at h
          rcases h with h | h
          · exact absurd h.symm hb
          · exact h
        obtain ⟨a, ha, hn⟩ := ih name hmem
        have hbf : (b.name == name) = false := by simp [hb]
        exact ⟨a, by simp [List.find?, hbf, ha], hn⟩

/-- If the policy never produces a final output and every handoff it
requests is legal and names a declared agent, the orchestrator consumes
the whole turn budget and reports `Exhausted`. -/
theorem orchestrateTrace_exhausts (agents : List Agent) (policy : Nat → String → TurnResult)
    (hpol : ∀ (turn : Nat) (name : String) (a : Agent),
        agents.find? (fun x => x.name == name) = some a →
        (∀ text, policy turn name ≠ TurnResult.finalOutput text)
        ∧ (∀ tgt rsn, policy turn name = TurnResult.handoff tgt rsn →
            tgt ∈ a.can_handoff_to ∧ tgt ∈ agents.map Agent.name)) :
    ∀ (fuel : Nat) (current : String) (turn : Nat),
      current ∈ agents.map Agent.name →
      (orchestrateTrace agents policy fuel current turn).2 = RunStatus.exhausted := by
  intro fuel
  induction fuel with
  | zero => intro current turn _; rfl
  | succ n ih =>
      intro current turn hcur
      obtain ⟨a, hfa, _⟩ := find?_of_name_mem agents current hcur
      cases hp : policy turn current with
      | finalOutput text => exact absurd hp ((hpol turn current a hfa).1 text)
      | toolCalls cs =>
          simp only [orchestrateTrace, hfa, hp]
          exact ih current (turn + 1) hcur
      | handoff tgt rsn =>
          obtain ⟨hmem, htgt⟩ := (hpol turn current a hfa).2 tgt rsn hp
          simp only [orchestrateTrace, hfa, hp, if_pos hmem]
          exact ih tgt (turn + 1) htgt

/-- When every declared handoff target is itself a declared agent and
the run starts at a declared agent, every agent the current-agent
pointer visits is a declared agent. -/
theorem orchestrateTrace_agents_declared (agents : List Agent)
    (policy : Nat → String → TurnResult)
    (hclosed : ∀ a ∈ agents, ∀ t ∈ a.can_handoff_to, t ∈ agents.map Agent.name) :
    ∀ (fuel : Nat) (current : String) (turn : Nat),
      current ∈ agents.map Agent.name →
      ∀ p ∈ (orchestrateTrace agents policy fuel current turn).1,
        p.2 ∈ agents.map Agent.name := by
  intro fuel
  induction fuel with
  | zero => intro current turn _ p hp; simp [orchestrateTrace] at hp
  | succ n ih =>
      intro current turn hcur p hp
      cases hf : agents.find? (fun x => x.name == current) with
      | none =>
          simp only [orchestrateTrace, hf, List.mem_singleton] at hp
          rw [hp]; exact hcur
      | some a =>
          cases hpol : policy turn current with
          | finalOutput text =>
              simp only [orchestrateTrace, hf, hpol, List.mem_singleton] at hp
              rw [hp]; exact hcur
          | toolCalls cs =>
              simp only [orchestrateTrace, hf, hpol, List.mem_cons] at hp
              rcases hp with hp | hp
              · rw [hp]; exact hcur
              · exact ih current (turn + 1) hcur p hp
          | handoff tgt rsn =>
              by_cases hm : tgt ∈ a.can_handoff_to
              · simp only [orchestrateTrace, hf, hpol, if_pos hm, List.mem_cons] at hp
                rcases hp with hp | hp
                · rw [hp]; exact hcur
                · exact ih tgt (turn + 1)
                    (hclosed a (List.mem_of_find?_eq_some hf) tgt hm) p hp
              · simp only [orchestrateTrace, hf, hpol, if_neg hm, List.mem_singleton] at hp
                rw [hp]; exact hcur

/-- Claim C3: the turn counter of a run is monotonically non-decreasing
(in fact the trace's turn numbers are consecutive), the run terminates
within `max_turns` turns (`orchestrate` is a total function into the
three-valued `RunStatus`, and the trace length never exceeds the
budget), and when the agents cycle forever — the policy never produces
a final output and all its handoffs are legal — the run returns
`Exhausted` rather than looping or failing. -/
theorem run_bounded_and_exhausts (agents : List Agent) (policy : Nat → String → TurnResult)
    (root : String) (max_turns : Nat) :
    List.Chain' (· ≤ ·) ((orchestrateTrace agents policy max_turns root 0).1.map Prod.fst)
    ∧ (orchestrateTrace agents policy max_turns root 0).1.length ≤ max_turns
    ∧ (root ∈ agents.map Agent.name →
        (∀ (turn : Nat) (name : String) (a : Agent),
            agents.find? (fun x => x.name == name) = some a →
            (∀ text, policy turn name ≠ TurnResult.finalOutput text)
            ∧ (∀ tgt rsn, policy turn name = TurnResult.handoff tgt rsn →
                tgt ∈ a.can_handoff_to ∧ tgt ∈ agents.map Agent.name)) →
        orchestrate agents policy root max_turns = RunStatus.exhausted) := by
  refine ⟨?_, orchestrateTrace_length_le agents policy max_turns root 0, ?_⟩
  · rw [orchestrateTrace_map_fst]
    exact chain'_le_range' _ _
  · intro hroot hpol
    exact orchestrateTrace_exhausts agents policy hpol max_turns root 0 hroot

/-- Claim C3 witness: a one-agent universe whose policy hands off to
itself forever exhausts a budget of 5 turns. -/
theorem run_bounded_and_exhausts_witness :
    List.Chain' (· ≤ ·) ((orchestrateTrace [loopAgent] loopPolicy 5 "A" 0).1.map Prod.fst)
    ∧ (orchestrateTrace [loopAgent] loopPolicy 5 "A" 0).1.length ≤ 5
    ∧ orchestrate [loopAgent] loopPolicy "A" 5 = RunStatus.exhausted := by
  have h := run_bounded_and_exhausts [loopAgent] loopPolicy "A" 5
  refine ⟨h.1, h.2.1, h.2.2 (by simp [loopAgent]) ?_⟩
  intro turn name a hfa
  have hax : a = loopAgent := by
    have hmem := List.mem_of_find?_eq_some hfa
    simpa using hmem
  subst hax
  constructor
  · intro text hcontra
    simp [loopPolicy] at hcontra
  · intro tgt rsn hh
    simp only [loopPolicy] at hh
    cases hh
    exact ⟨by simp [loopAgent], by simp [loopAgent]⟩

/-- Claim C4: every name listed in any workflow agent's
`can_handoff_to` set is the name of an agent declared in the workflow's
agent list; consequently the current-agent pointer of a run started at
the declared root only ever visits declared agents; and a handoff
naming a target outside the active agent's declared set terminates the
run with a `HandoffRejected` failure instead of being executed. -/
theorem handoff_targets_legal :
    (∀ a ∈ workflow_agents, ∀ t ∈ a.can_handoff_to, t ∈ workflow_agents.map Agent.name)
    ∧ (∀ (policy : Nat → String → TurnResult) (m : Nat) (p : Nat × String),
        p ∈ (orchestrateTrace workflow_agents policy m root_agent 0).1 →
        p.2 ∈ workflow_agents.map Agent.name)
    ∧ (∀ (agents : List Agent) (policy : Nat → String → TurnResult) (fuel turn : Nat)
        (current : String) (a : Agent) (tgt rsn : String),
        agents.find? (fun x => x.name == current) = some a →
        policy turn current = TurnResult.handoff tgt rsn →
        tgt ∉ a.can_handoff_to →
        orchestrateTrace agents policy (fuel + 1) current turn
          = ([(turn, current)], RunStatus.failed "HandoffRejected")) := by
  refine ⟨by decide, ?_, ?_⟩
  · intro policy m p hp
    exact orchestrateTrace_agents_declared workflow_agents policy (by decide)
      m root_agent 0 (by decide) p hp
  · intro agents policy fuel turn current a tgt rsn hfa hpol hmem
    simp [orchestrateTrace, hfa, hpol, hmem]

/-- Claim C4 witness: the current-agent invariant at the root of a
concrete run, and a concrete rejected handoff to an undeclared name. -/
theorem handoff_targets_legal_witness :
    ((0, root_agent) : Nat × String).2 ∈ workflow_agents.map Agent.name
    ∧ orchestrateTrace workflow_agents badHandoffPolicy 1 root_agent 0
        = ([(0, root_agent)], RunStatus.failed "HandoffRejected") :=
  ⟨handoff_targets_legal.2.1 stayPolicy 1 (0, root_agent) (by decide),
   handoff_targets_legal.2.2 workflow_agents badHandoffPolicy 0 0 root_agent
     review_and_posting_agent "NonexistentAgent" "oops" (by decide) rfl (by decide)⟩

end RecipeApi
